import Mathlib

/-!
Verification of the page-selection logic of the `pdf-extract` utility
(`src/pdf_extract/main.py`).

The Python functions are shallowly embedded as executable Lean functions:
strings are Lean `String`s, Python `int` is `Int`, Python `range(a, b)` is
`pyRange a b`, Python exceptions become `Except` errors.  The CLI driver
`main` is embedded as `runMain` over an abstract `World` describing the
file system and the input document; the only observable write (the output
PDF) appears as the payload of `MainResult.success`, so an `exited` result
means no output file was created.
-/

instance {ε α : Type} [DecidableEq ε] [DecidableEq α] : DecidableEq (Except ε α) := fun x y =>
  match x, y with
  | .error e, .error f =>
    if h : e = f then .isTrue (by rw [h]) else .isFalse (by simp [h])
  | .error _, .ok _ => .isFalse (by simp)
  | .ok _, .error _ => .isFalse (by simp)
  | .ok a, .ok b =>
    if h : a = b then .isTrue (by rw [h]) else .isFalse (by simp [h])

/-- Python whitespace characters recognised by `str.strip()` (the ASCII ones,
which are the only ones relevant here). -/
def isPySpace (c : Char) : Bool :=
  c = ' ' || c = '\t' || c = '\n' || c = '\r' || c = '\x0b' || c = '\x0c'

/-- Embedding of Python `str.strip()`. -/
def pyStrip (s : String) : String :=
  ⟨((s.data.dropWhile isPySpace).reverse.dropWhile isPySpace).reverse⟩

/-- Split a character list at every occurrence of `c`
(the list-level model of Python `str.split(c)`). -/
def splitOnChar (c : Char) : List Char → List (List Char)
  | [] => [[]]
  | x :: rest =>
    match splitOnChar c rest with
    | [] => [[]]
    | h :: t => if x = c then [] :: h :: t else (x :: h) :: t

/-- Embedding of Python `s.split(c)` for a one-character separator. -/
def pySplit (c : Char) (s : String) : List String :=
  (splitOnChar c s.data).map (fun l => ⟨l⟩)

/-- Split a character list at the first occurrence of `c`; when `c` is absent
the second component is empty. -/
def splitOnceAux (c : Char) : List Char → List Char × List Char
  | [] => ([], [])
  | x :: rest =>
    if x = c then ([], rest)
    else
      let p := splitOnceAux c rest
      (x :: p.1, p.2)

/-- Embedding of Python `s.split(c, 1)` (which the source only applies when
`c` occurs in `s`, so the two components always suffice). -/
def splitOnce (c : Char) (s : String) : String × String :=
  let p := splitOnceAux c s.data
  (⟨p.1⟩, ⟨p.2⟩)

/-- Parse a digit run, accumulator style; `none` on a non-digit. -/
def digitsAux : List Char → Nat → Option Nat
  | [], acc => some acc
  | c :: rest, acc =>
    if c.isDigit then digitsAux rest (acc * 10 + (c.toNat - 48)) else none

/-- Parse a non-empty all-digit character list to a natural number. -/
def digitsToNat : List Char → Option Nat
  | [] => none
  | c :: rest => digitsAux (c :: rest) 0

/-- Embedding of Python `int(s)` on strings: strip whitespace, optional sign,
then a non-empty digit run; `none` models the `ValueError` raised otherwise. -/
def pyInt (s : String) : Option Int :=
  match (pyStrip s).data with
  | '-' :: rest => (digitsToNat rest).map (fun n => -(n : Int))
  | '+' :: rest => (digitsToNat rest).map (fun n => (n : Int))
  | t => (digitsToNat t).map (fun n => (n : Int))

/-- Embedding of Python `list(range(a, b))` on integers: the integers from
`a` (inclusive) to `b` (exclusive), empty when `b ≤ a`. -/
def pyRange (a b : Int) : List Int :=
  (List.range (b - a).toNat).map (fun i => a + Int.ofNat i)

/-- Embedding of `pages_str.replace(",", "_")` used for default output names. -/
def pyReplaceComma (s : String) : String :=
  ⟨s.data.map (fun c => if c = ',' then '_' else c)⟩

/-- Decimal digits of `n`, most significant first, fuel-structural so the
kernel can evaluate it. -/
def natDigits : Nat → Nat → List Char → List Char
  | 0, _, acc => acc
  | fuel + 1, n, acc =>
    let d := Char.ofNat (48 + n % 10)
    if n < 10 then d :: acc else natDigits fuel (n / 10) (d :: acc)

/-- Decimal rendering of a natural number (Python `str` of a non-negative int). -/
def natRepr (n : Nat) : String :=
  ⟨natDigits (n + 1) n []⟩

/-- Decimal rendering of an integer (Python f-string of an int). -/
def intRepr (i : Int) : String :=
  if i < 0 then ("-") ++ natRepr (-i).toNat else natRepr i.toNat

/-- Errors raised by the two parsing functions: `intError` models the
`ValueError` of a failed `int()` conversion, `labelNotFound` the explicit
`ValueError` for a label absent from the label table. -/
inductive ParseErr where
  | intError
  | labelNotFound (label : String)
deriving DecidableEq

/-- Error raised by `extract_pages` for an index outside `[0, total_pages)`. -/
inductive ExtractErr where
  | rangeError (idx : Int)
deriving DecidableEq

/-- Per-token processing of `parse_pages_by_index`: strip the token, treat it
as a 1-based range `start-end` when it contains a hyphen
(`range(int(start) - 1, int(end))`), otherwise as a single 1-based page
(`int(part) - 1`). -/
def parseIndexToken (part0 : String) : Except ParseErr (List Int) :=
  let part := pyStrip part0
  if part.data.contains '-' then
    let p := splitOnce '-' part
    match pyInt p.1, pyInt p.2 with
    | some a, some b => .ok (pyRange (a - 1) b)
    | _, _ => .error .intError
  else
    match pyInt part with
    | some n => .ok [n - 1]
    | none => .error .intError

/-- The loop of `parse_pages_by_index` over the comma-separated tokens,
concatenating the indices each token contributes and propagating the first
raised error. -/
def parseIndexParts : List String → Except ParseErr (List Int)
  | [] => .ok []
  | part :: rest =>
    match parseIndexToken part with
    | .error e => .error e
    | .ok l =>
      match parseIndexParts rest with
      | .error e => .error e
      | .ok ls => .ok (l ++ ls)

/-- Embedding of `parse_pages_by_index` (src/pdf_extract/main.py lines 22-35):
split the expression on commas and process each token. -/
def parse_pages_by_index (pages_str : String) : Except ParseErr (List Int) :=
  parseIndexParts (pySplit ',' pages_str)

/-- Per-token processing of `parse_pages_by_label`: on a hyphen token, look up
both stripped endpoints, swap their positions when reversed and emit the
inclusive run; on a plain token, look up the label itself. -/
def parseLabelToken (m : List (String × Nat)) (part0 : String) :
    Except ParseErr (List Int) :=
  let part := pyStrip part0
  if part.data.contains '-' then
    let p := splitOnce '-' part
    let s := pyStrip p.1
    let e := pyStrip p.2
    match List.lookup s m with
    | none => .error (.labelNotFound s)
    | some si =>
      match List.lookup e m with
      | none => .error (.labelNotFound e)
      | some ei =>
        let q := if si > ei then (ei, si) else (si, ei)
        .ok (pyRange (q.1 : Int) ((q.2 : Int) + 1))
  else
    match List.lookup part m with
    | none => .error (.labelNotFound part)
    | some i => .ok [(i : Int)]

/-- The loop of `parse_pages_by_label` over the comma-separated tokens. -/
def parseLabelParts (m : List (String × Nat)) : List String → Except ParseErr (List Int)
  | [] => .ok []
  | part :: rest =>
    match parseLabelToken m part with
    | .error e => .error e
    | .ok l =>
      match parseLabelParts m rest with
      | .error e => .error e
      | .ok ls => .ok (l ++ ls)

/-- Embedding of `parse_pages_by_label` (src/pdf_extract/main.py lines 38-63). -/
def parse_pages_by_label (pages_str : String) (m : List (String × Nat)) :
    Except ParseErr (List Int) :=
  parseLabelParts m (pySplit ',' pages_str)

/-- The loop of `build_label_to_index`: insert `(label, idx)` only when the
label is not yet a key; insertion appends, matching dict insertion order. -/
def buildLoop : List String → Nat → List (String × Nat) → List (String × Nat)
  | [], _, m => m
  | label :: rest, idx, m =>
    buildLoop rest (idx + 1)
      (if (List.lookup label m).isSome then m else m ++ [(label, idx)])

/-- Embedding of `build_label_to_index` (src/pdf_extract/main.py lines 66-75):
the Python dict is modelled as an association list with unique keys. -/
def build_label_to_index (labels : List String) : List (String × Nat) :=
  buildLoop labels 0 []

/-- Embedding of `extract_pages` (src/pdf_extract/main.py lines 8-19): each
index is checked against `[0, total_pages)` in order; the first bad index
raises `ValueError` before the output file is opened, so pages are written
(the `ok` payload) only when every index is in range. -/
def extract_pages (total_pages : Nat) : List Int → Except ExtractErr (List Int)
  | [] => .ok []
  | idx :: rest =>
    if idx < 0 ∨ (total_pages : Int) ≤ idx then .error (.rangeError idx)
    else
      match extract_pages total_pages rest with
      | .error e => .error e
      | .ok l => .ok (idx :: l)

/-- The parsed CLI arguments of `main`; `none` models an absent option. -/
structure Args where
  from_page : Option String
  to_page : Option String
  pages : Option String
  output : Option String
  by_label : Bool

/-- The string value of an optional argument; Python truthiness of
`args.pages` etc. is `optStr · ≠ ""` (absent and empty are both falsy). -/
def optStr : Option String → String
  | some s => s
  | none => ""

/-- How the selection phase of `main` can fail: `usage` is `parser.error`
(exit code 2), `parse e` is an uncaught parsing `ValueError` (exit code 1),
`cliExit l` is the explicit label-not-found `SystemExit(1)` of the
`--from`/`--to` label branch. -/
inductive SelErr where
  | usage
  | parse (e : ParseErr)
  | cliExit (label : String)
deriving DecidableEq

/-- The selection phase of `main` (src/pdf_extract/main.py lines 101-143):
the `if args.pages / elif args.from_page and args.to_page /
elif args.from_page / else parser.error` chain, in both label and numeric
modes, producing the index list and the default output file name. -/
def selectIndices (args : Args) (m : List (String × Nat)) :
    Except SelErr (List Int × String) :=
  let pagesS := optStr args.pages
  let fromS := optStr args.from_page
  let toS := optStr args.to_page
  if args.by_label = true then
    if pagesS ≠ "" then
      match parse_pages_by_label pagesS m with
      | .error e => .error (.parse e)
      | .ok idxs => .ok (idxs, pyReplaceComma pagesS ++ (".pdf"))
    else if fromS ≠ "" ∧ toS ≠ "" then
      match List.lookup fromS m with
      | none => .error (.cliExit fromS)
      | some si =>
        match List.lookup toS m with
        | none => .error (.cliExit toS)
        | some ei =>
          let q := if si > ei then (ei, si) else (si, ei)
          .ok (pyRange (q.1 : Int) ((q.2 : Int) + 1), fromS ++ ("-") ++ toS ++ (".pdf"))
    else if fromS ≠ "" then
      match List.lookup fromS m with
      | none => .error (.cliExit fromS)
      | some i => .ok ([(i : Int)], fromS ++ (".pdf"))
    else .error .usage
  else
    if pagesS ≠ "" then
      match parse_pages_by_index pagesS with
      | .error e => .error (.parse e)
      | .ok idxs => .ok (idxs, pyReplaceComma pagesS ++ (".pdf"))
    else if fromS ≠ "" ∧ toS ≠ "" then
      match pyInt fromS, pyInt toS with
      | some f, some t =>
        .ok (pyRange (f - 1) t, intRepr f ++ ("-") ++ intRepr t ++ (".pdf"))
      | _, _ => .error (.parse .intError)
    else if fromS ≠ "" then
      match pyInt fromS with
      | some f => .ok ([f - 1], intRepr f ++ (".pdf"))
      | none => .error (.parse .intError)
    else .error .usage

/-- The abstract environment of one CLI invocation: whether the input file
exists, the document's page count and ordered label sequence, and which
output paths already exist on disk. -/
structure World where
  inputExists : Bool
  total_pages : Nat
  labels : List String
  fileExists : String → Bool

/-- Outcome of one run of `main`: a process exit with the given code, or a
successful extraction writing `written` (in order) to `output_path`.  Only
`success` writes anything. -/
inductive MainResult where
  | exited (code : Nat)
  | success (output_path : String) (written : List Int)
deriving DecidableEq

/-- `out_dir / (args.output or Path(default_output))` of `main`. -/
def resolvedOutput (args : Args) (default_output : String) : String :=
  ("out/") ++
    (match args.output with
     | some o => o
     | none => default_output)

/-- Embedding of `main` (src/pdf_extract/main.py lines 78-160): missing input
exits 1; `parser.error` exits 2; an uncaught parse `ValueError` or an explicit
`SystemExit` exits 1; an existing output path exits 1 before `extract_pages`
runs; a range error in `extract_pages` is caught and exits 1; otherwise the
selected pages are written. -/
def runMain (w : World) (args : Args) : MainResult :=
  if w.inputExists = false then .exited 1
  else
    match selectIndices args (build_label_to_index w.labels) with
    | .error .usage => .exited 2
    | .error _ => .exited 1
    | .ok (idxs, d) =>
      let output_path := resolvedOutput args d
      if w.fileExists output_path then .exited 1
      else
        match extract_pages w.total_pages idxs with
        | .error _ => .exited 1
        | .ok written => .success output_path written

/-! ## Specification-side descriptions used to state the claims -/

/-- Shape of one numeric token of a selection expression: the literal token
string together with the 1-based value(s) it denotes. -/
inductive TokSpec where
  | single (s : String) (n : Int)
  | rng (s : String) (a b : Int)

/-- The literal token string. -/
def TokSpec.str : TokSpec → String
  | .single s _ => s
  | .rng s _ _ => s

/-- A token description is valid when the token string really has the claimed
shape: a `single` has no hyphen after stripping and its text is the integer
`n`; a `rng` has a hyphen and its two halves are the integers `a` and `b`. -/
def tokValid : TokSpec → Prop
  | .single s n =>
      (pyStrip s).data.contains '-' = false ∧ pyInt (pyStrip s) = some n
  | .rng s a b =>
      (pyStrip s).data.contains '-' = true ∧
      pyInt (splitOnce '-' (pyStrip s)).1 = some a ∧
      pyInt (splitOnce '-' (pyStrip s)).2 = some b

instance : DecidablePred tokValid := fun t =>
  match t with
  | .single s n =>
      inferInstanceAs (Decidable ((pyStrip s).data.contains '-' = false ∧
        pyInt (pyStrip s) = some n))
  | .rng s a b =>
      inferInstanceAs (Decidable ((pyStrip s).data.contains '-' = true ∧
        pyInt (splitOnce '-' (pyStrip s)).1 = some a ∧
        pyInt (splitOnce '-' (pyStrip s)).2 = some b))

/-- The 1-based page numbers a token denotes: a single value, or (for a
range `a-b`) every value from `a` to `b` inclusive. -/
def tokVals : TokSpec → List Int
  | .single _ n => [n]
  | .rng _ a b => pyRange a (b + 1)

/-! ## Helper lemmas -/

theorem pyRange_map_sub_one (a b : Int) :
    (pyRange a (b + 1)).map (fun v => v - 1) = pyRange (a - 1) b := by
  unfold pyRange
  rw [List.map_map]
  have h1 : (b + 1 - a).toNat = (b - (a - 1)).toNat := by omega
  have h2 : ((fun v => v - 1) ∘ fun i : Nat => a + Int.ofNat i) =
      fun i : Nat => (a - 1) + Int.ofNat i := by
    funext i
    simp only [Function.comp]
    omega
  rw [h1, h2]

theorem pyRange_eq_nil (a b : Int) (h : b ≤ a) : pyRange a b = [] := by
  unfold pyRange
  have h0 : (b - a).toNat = 0 := by omega
  rw [h0]
  rfl

theorem parseIndexToken_eq_of_valid (t : TokSpec) (h : tokValid t) :
    parseIndexToken (TokSpec.str t) = .ok ((tokVals t).map (fun v => v - 1)) := by
  cases t with
  | single s n =>
    obtain ⟨h1, h2⟩ := h
    simp at h1
    simp [parseIndexToken, TokSpec.str, tokVals, h1, h2]
  | rng s a b =>
    obtain ⟨h1, h2, h3⟩ := h
    simp at h1
    simp [parseIndexToken, TokSpec.str, tokVals, h1, h2, h3, pyRange_map_sub_one]

theorem parseIndexParts_ok (toks : List TokSpec) (h : ∀ t ∈ toks, tokValid t) :
    parseIndexParts (toks.map TokSpec.str) =
      .ok ((toks.flatMap tokVals).map (fun v => v - 1)) := by
  induction toks with
  | nil => rfl
  | cons t rest ih =>
    have ht := h t (by simp)
    have hrest : ∀ t2 ∈ rest, tokValid t2 := fun t2 ht2 => h t2 (by simp [ht2])
    simp [parseIndexParts, parseIndexToken_eq_of_valid t ht, ih hrest]

theorem extract_pages_error_of_mem (tp : Nat) (indices : List Int) (idx : Int)
    (hmem : idx ∈ indices) (hbad : idx < 0 ∨ (tp : Int) ≤ idx) :
    ∃ i, extract_pages tp indices = .error (.rangeError i) := by
  induction indices with
  | nil => cases hmem
  | cons x rest ih =>
    by_cases hx : x < 0 ∨ (tp : Int) ≤ x
    · exact ⟨x, by simp [extract_pages, hx]⟩
    · have hidx : idx ∈ rest := by
        rcases List.mem_cons.mp hmem with h | h
        · exact absurd (h ▸ hbad) hx
        · exact h
      obtain ⟨i, hi⟩ := ih hidx
      exact ⟨i, by simp [extract_pages, hx, hi]⟩

/-! ## Claim theorems -/

/-- C1: in numeric mode, every valid selection expression of comma-separated
1-based single tokens and hyphen ranges produces exactly the 0-based indices
obtained by subtracting one from each denoted 1-based value. -/
theorem numeric_parse_is_one_based_minus_one (pages_str : String)
    (toks : List TokSpec)
    (hsplit : pySplit ',' pages_str = toks.map TokSpec.str)
    (hvalid : ∀ t ∈ toks, tokValid t) :
    parse_pages_by_index pages_str =
      .ok ((toks.flatMap tokVals).map (fun v => v - 1)) := by
  unfold parse_pages_by_index
  rw [hsplit]
  exact parseIndexParts_ok toks hvalid

/-- C1 witness: the expression `"1,3,5-7"` yields `[0, 2, 4, 5, 6]`. -/
theorem numeric_parse_is_one_based_minus_one_witness :
    parse_pages_by_index ("1,3,5-7") = .ok [0, 2, 4, 5, 6] := by
  have h := numeric_parse_is_one_based_minus_one ("1,3,5-7")
    [TokSpec.single ("1") 1, TokSpec.single ("3") 3, TokSpec.rng ("5-7") 5 7]
    (by decide) (by decide)
  exact h.trans (by decide)

/-- C2 counterexample: the claim that a reversed numeric range is normalised
by swapping is false.  `"7-5"` parses to the empty selection, not to the run
`[4, 5, 6]` that the swapped range `5-7` would give, and `--from 7 --to 5`
likewise selects nothing. -/
theorem reversed_numeric_range_not_swapped :
    parse_pages_by_index ("7-5") = .ok [] ∧
    selectIndices ⟨some ("7"), some ("5"), none, none, false⟩ [] =
      .ok ([], ("7-5.pdf")) ∧
    (Except.ok [] : Except ParseErr (List Int)) ≠ .ok [4, 5, 6] := by
  decide

/-- C2 amended: in numeric mode, a range whose start exceeds its end — a
hyphen token or `--from`/`--to` endpoints — produces the empty selection
(no indices at all); start/end swapping happens only in label mode. -/
theorem reversed_numeric_range_empty (part : String) (a b : Int)
    (hc : (pyStrip part).data.contains '-' = true)
    (ha : pyInt (splitOnce '-' (pyStrip part)).1 = some a)
    (hb : pyInt (splitOnce '-' (pyStrip part)).2 = some b)
    (hba : b < a)
    (fs ts : String) (f t : Int)
    (hf : pyInt fs = some f) (ht : pyInt ts = some t)
    (hfs : fs ≠ "") (hts : ts ≠ "") (htf : t < f) :
    parseIndexToken part = .ok [] ∧
    selectIndices ⟨some fs, some ts, none, none, false⟩ [] =
      .ok ([], intRepr f ++ ("-") ++ intRepr t ++ (".pdf")) := by
  have hcm : '-' ∈ (pyStrip part).data := by
    have := hc
    simp at this
    exact this
  constructor
  · simp [parseIndexToken, hcm, ha, hb, pyRange_eq_nil (a - 1) b (by omega)]
  · simp [selectIndices, optStr, hfs, hts, hf, ht,
      pyRange_eq_nil (f - 1) t (by omega)]

/-- C2 amended witness: `"7-5"` and `--from 7 --to 5` both select nothing. -/
theorem reversed_numeric_range_empty_witness :
    parseIndexToken ("7-5") = .ok [] ∧
    selectIndices ⟨some ("7"), some ("5"), none, none, false⟩ [] =
      .ok ([], intRepr 7 ++ ("-") ++ intRepr 5 ++ (".pdf")) :=
  reversed_numeric_range_empty ("7-5") 7 5 (by decide) (by decide) (by decide)
    (by decide) ("7") ("5") 7 5 (by decide) (by decide) (by decide) (by decide)
    (by decide)

/-- C3: if any requested index lies outside `[0, total_pages)`, extraction
raises a range error and nothing is written — the `ok` payload, which models
the pages written to the output file, is never produced. -/
theorem out_of_range_extraction_fails (total_pages : Nat) (indices : List Int)
    (h : ∃ idx ∈ indices, idx < 0 ∨ (total_pages : Int) ≤ idx) :
    (∃ i, extract_pages total_pages indices = .error (.rangeError i)) ∧
    ∀ written, extract_pages total_pages indices ≠ .ok written := by
  obtain ⟨idx, hmem, hbad⟩ := h
  obtain ⟨i, hi⟩ := extract_pages_error_of_mem total_pages indices idx hmem hbad
  refine ⟨⟨i, hi⟩, fun written hw => ?_⟩
  exact Except.noConfusion (hw.symm.trans hi)

/-- C3 witness: with 5 pages, the numeric expression `"6"` parses to `[5]` and
extraction of `[5]` fails with a range error, writing nothing. -/
theorem out_of_range_extraction_fails_witness :
    parse_pages_by_index ("6") = .ok [5] ∧
    (∃ i, extract_pages 5 [5] = .error (.rangeError i)) ∧
    ∀ written, extract_pages 5 [5] ≠ .ok written := by
  have h := out_of_range_extraction_fails 5 [5] ⟨5, by decide, by decide⟩
  exact ⟨by decide, h.1, h.2⟩

/-- C10: an index list containing a negative index makes `extract_pages`
raise a range error (before the output file would be opened), rather than
letting Python's negative indexing silently pick a page from the end. -/
theorem negative_index_extraction_fails (total_pages : Nat) (indices : List Int)
    (idx : Int) (hmem : idx ∈ indices) (hneg : idx < 0) :
    ∃ i, extract_pages total_pages indices = .error (.rangeError i) :=
  extract_pages_error_of_mem total_pages indices idx hmem (Or.inl hneg)

/-- C10 witness: the numeric token `"0"` parses to index `-1`, and extracting
`[-1]` from a 5-page document fails with a range error. -/
theorem negative_index_extraction_fails_witness :
    parse_pages_by_index ("0") = .ok [-1] ∧
    ∃ i, extract_pages 5 [-1] = .error (.rangeError i) :=
  ⟨by decide, negative_index_extraction_fails 5 [-1] (-1) (by decide) (by decide)⟩

theorem splitOnChar_no_sep (c : Char) (cs : List Char)
    (h : cs.contains c = false) : splitOnChar c cs = [cs] := by
  induction cs with
  | nil => rfl
  | cons x rest ih =>
    simp only [List.contains_cons, Bool.or_eq_false_iff] at h
    obtain ⟨h1, h2⟩ := h
    unfold splitOnChar
    rw [ih h2]
    have hx : ¬ x = c := by
      intro he
      rw [he] at h1
      simp at h1
    simp [hx]

theorem pySplit_no_sep (c : Char) (s : String)
    (h : s.data.contains c = false) : pySplit c s = [s] := by
  unfold pySplit
  rw [splitOnChar_no_sep c s.data h]
  rfl

theorem parseLabelToken_range (part : String) (m : List (String × Nat))
    (si ei : Nat)
    (hc : (pyStrip part).data.contains '-' = true)
    (hs : List.lookup (pyStrip (splitOnce '-' (pyStrip part)).1) m = some si)
    (he : List.lookup (pyStrip (splitOnce '-' (pyStrip part)).2) m = some ei) :
    parseLabelToken m part =
      .ok (pyRange (Int.ofNat (min si ei)) (Int.ofNat (max si ei) + 1)) := by
  have hcm : '-' ∈ (pyStrip part).data := by
    have := hc
    simp at this
    exact this
  rcases Nat.lt_or_ge ei si with hlt | hge
  · have hmin : min si ei = ei := Nat.min_eq_right (Nat.le_of_lt hlt)
    have hmax : max si ei = si := Nat.max_eq_left (Nat.le_of_lt hlt)
    simp [parseLabelToken, hcm, hs, he, hmin, hmax, hlt]
  · have hmin : min si ei = si := Nat.min_eq_left hge
    have hmax : max si ei = ei := Nat.max_eq_right hge
    have hng : ¬ si > ei := Nat.not_lt.mpr hge
    simp [parseLabelToken, hcm, hs, he, hmin, hmax, hng]

/-- C4: in label mode, a range token whose two endpoints are both in the
label table yields every index between the endpoints' positions inclusive,
in min-to-max order regardless of which endpoint comes first. -/
theorem label_range_min_max (pages_str : String) (m : List (String × Nat))
    (si ei : Nat)
    (hnc : pages_str.data.contains ',' = false)
    (hc : (pyStrip pages_str).data.contains '-' = true)
    (hs : List.lookup (pyStrip (splitOnce '-' (pyStrip pages_str)).1) m = some si)
    (he : List.lookup (pyStrip (splitOnce '-' (pyStrip pages_str)).2) m = some ei) :
    parse_pages_by_label pages_str m =
      .ok (pyRange (Int.ofNat (min si ei)) (Int.ofNat (max si ei) + 1)) := by
  unfold parse_pages_by_label
  rw [pySplit_no_sep ',' pages_str hnc]
  simp [parseLabelParts, parseLabelToken_range pages_str m si ei hc hs he]

/-- C4 witness: with labels `["i","ii","iii","1","2"]` both `"i-iii"` and the
reversed `"iii-i"` select `[0, 1, 2]`. -/
theorem label_range_min_max_witness :
    parse_pages_by_label ("iii-i")
      (build_label_to_index [("i"), ("ii"), ("iii"), ("1"), ("2")]) = .ok [0, 1, 2] ∧
    parse_pages_by_label ("i-iii")
      (build_label_to_index [("i"), ("ii"), ("iii"), ("1"), ("2")]) = .ok [0, 1, 2] := by
  have h := label_range_min_max ("iii-i")
    (build_label_to_index [("i"), ("ii"), ("iii"), ("1"), ("2")]) 2 0
    (by decide) (by decide) (by decide) (by decide)
  exact ⟨h.trans (by decide), by decide⟩

/-- Specification-side description of a label token whose lookup must fail:
either a singleton token absent from the table, or a range token one of whose
stripped endpoints is absent from the table. -/
def badLabelToken (m : List (String × Nat)) (part0 : String) : Bool :=
  let part := pyStrip part0
  if part.data.contains '-' then
    let p := splitOnce '-' part
    (List.lookup (pyStrip p.1) m).isNone || (List.lookup (pyStrip p.2) m).isNone
  else (List.lookup part m).isNone

theorem parseLabelToken_err_shape (m : List (String × Nat)) (p : String)
    (e : ParseErr) (h : parseLabelToken m p = .error e) :
    ∃ l, e = .labelNotFound l := by
  unfold parseLabelToken at h
  by_cases hc : (pyStrip p).data.contains '-'
  · simp only [hc, if_true] at h
    cases hs : List.lookup (pyStrip (splitOnce '-' (pyStrip p)).1) m with
    | none =>
      rw [hs] at h
      exact ⟨_, (Except.error.inj h).symm⟩
    | some si =>
      rw [hs] at h
      cases he : List.lookup (pyStrip (splitOnce '-' (pyStrip p)).2) m with
      | none =>
        rw [he] at h
        exact ⟨_, (Except.error.inj h).symm⟩
      | some ei =>
        rw [he] at h
        exact Except.noConfusion h
  · simp only [hc, if_false] at h
    cases hs : List.lookup (pyStrip p) m with
    | none =>
      rw [hs] at h
      exact ⟨_, (Except.error.inj h).symm⟩
    | some i =>
      rw [hs] at h
      exact Except.noConfusion h

theorem parseLabelToken_error_of_bad (m : List (String × Nat)) (part : String)
    (h : badLabelToken m part = true) :
    ∃ e, parseLabelToken m part = .error e := by
  unfold badLabelToken at h
  unfold parseLabelToken
  by_cases hc : (pyStrip part).data.contains '-'
  · simp only [hc, if_true] at h ⊢
    cases hs : List.lookup (pyStrip (splitOnce '-' (pyStrip part)).1) m with
    | none => exact ⟨_, rfl⟩
    | some si =>
      cases he : List.lookup (pyStrip (splitOnce '-' (pyStrip part)).2) m with
      | none => exact ⟨_, rfl⟩
      | some ei =>
        rw [hs, he] at h
        simp at h
  · simp only [hc, if_false] at h ⊢
    cases hs : List.lookup (pyStrip part) m with
    | none => exact ⟨_, rfl⟩
    | some i =>
      rw [hs] at h
      simp at h

theorem parseLabelParts_labelNotFound (m : List (String × Nat))
    (parts : List String) (part : String) (hmem : part ∈ parts)
    (herr : ∃ e, parseLabelToken m part = .error e) :
    ∃ l, parseLabelParts m parts = .error (.labelNotFound l) := by
  induction parts with
  | nil => cases hmem
  | cons p rest ih =>
    cases hp : parseLabelToken m p with
    | error e =>
      obtain ⟨l, hl⟩ := parseLabelToken_err_shape m p e hp
      exact ⟨l, by simp [parseLabelParts, hp, hl]⟩
    | ok lst =>
      have hmem2 : part ∈ rest := by
        rcases List.mem_cons.mp hmem with h | h
        · obtain ⟨e, he⟩ := herr
          rw [h, hp] at he
          exact Except.noConfusion he
        · exact h
      obtain ⟨l, hl⟩ := ih hmem2
      exact ⟨l, by simp [parseLabelParts, hp, hl]⟩

/-- C5: in label mode, an expression containing a singleton token absent from
the label table, or a range token either of whose endpoints is absent,
makes the whole parse fail with a label-not-found error. -/
theorem absent_label_parse_fails (pages_str part : String)
    (m : List (String × Nat))
    (hmem : part ∈ pySplit ',' pages_str)
    (hbad : badLabelToken m part = true) :
    ∃ l, parse_pages_by_label pages_str m = .error (.labelNotFound l) := by
  unfold parse_pages_by_label
  exact parseLabelParts_labelNotFound m (pySplit ',' pages_str) part hmem
    (parseLabelToken_error_of_bad m part hbad)

/-- C5 witness: with labels `["i","ii"]`, the singleton `"xx"` in `"i,xx"`
and the range endpoint `"xx"` in `"xx-ii"` each fail with label-not-found. -/
theorem absent_label_parse_fails_witness :
    (∃ l, parse_pages_by_label ("i,xx")
        (build_label_to_index [("i"), ("ii")]) = .error (.labelNotFound l)) ∧
    (∃ l, parse_pages_by_label ("xx-ii")
        (build_label_to_index [("i"), ("ii")]) = .error (.labelNotFound l)) :=
  ⟨absent_label_parse_fails ("i,xx") ("xx") (build_label_to_index [("i"), ("ii")])
      (by decide) (by decide),
   absent_label_parse_fails ("xx-ii") ("xx-ii") (build_label_to_index [("i"), ("ii")])
      (by decide) (by decide)⟩

/-- C6 counterexample: supplying both `--pages "1"` and `--from "2"` does not
produce a usage error — `--pages` silently wins and extraction succeeds,
contradicting the claim that any combination other than exactly one of
`--pages`/`--from` is rejected. -/
theorem pages_and_from_together_succeed :
    runMain ⟨true, 10, [], fun _ => false⟩
      ⟨some ("2"), none, some ("1"), none, false⟩ =
    .success ("out/1.pdf") [0] := by
  decide

/-- C6 amended: the CLI reports a usage error iff neither `--pages` nor
`--from` is (non-emptily) supplied; when both are supplied, `--pages` takes
precedence and no usage error is raised. -/
theorem usage_error_iff_no_selection (args : Args) (m : List (String × Nat)) :
    selectIndices args m = .error .usage ↔
      optStr args.pages = "" ∧ optStr args.from_page = "" := by
  by_cases h1 : optStr args.pages = ""
  · by_cases h2 : optStr args.from_page = ""
    · cases hbl : args.by_label <;> simp [selectIndices, h1, h2, hbl]
    · cases hbl : args.by_label <;> by_cases h3 : optStr args.to_page = "" <;>
        simp [selectIndices, h1, h2, h3, hbl] <;>
        (repeat' split) <;> simp_all
  · cases hbl : args.by_label <;> simp [selectIndices, h1, hbl] <;>
      (repeat' split) <;> simp_all

/-- Specification-side notion of the zero-based index of the first occurrence
of `l` in a label sequence (`none` when absent). -/
def firstOccurrence (l : String) : List String → Option Nat
  | [] => none
  | x :: xs => if x = l then some 0 else (firstOccurrence l xs).map (· + 1)

theorem lookup_append_single (k a : String) (v : Nat) (m : List (String × Nat)) :
    List.lookup k (m ++ [(a, v)]) =
      match List.lookup k m with
      | some w => some w
      | none => if k = a then some v else none := by
  induction m with
  | nil =>
    by_cases hk : k = a
    · simp [List.lookup, hk]
    · have hb : (k == a) = false := by simp [hk]
      simp [List.lookup, hb, hk]
  | cons p rest ih =>
    by_cases hk : k = p.1
    · simp [List.lookup, hk]
    · simp only [List.cons_append, List.lookup]
      have hb : (k == p.1) = false := by simp [hk]
      rw [hb]
      simp only [cond_false]
      exact ih

theorem buildLoop_lookup (l : String) (labels : List String) (idx : Nat)
    (m : List (String × Nat)) :
    List.lookup l (buildLoop labels idx m) =
      match List.lookup l m with
      | some v => some v
      | none => (firstOccurrence l labels).map (· + idx) := by
  induction labels generalizing idx m with
  | nil =>
    cases h : List.lookup l m <;> simp [buildLoop, firstOccurrence, h]
  | cons x rest ih =>
    unfold buildLoop
    by_cases hx : (List.lookup x m).isSome
    · rw [if_pos hx, ih]
      by_cases hlx : x = l
      · subst hlx
        cases h : List.lookup x m with
        | none => rw [h] at hx; simp at hx
        | some v => simp [h, firstOccurrence]
      · cases h : List.lookup l m with
        | some v => simp [h]
        | none =>
          simp only [h, firstOccurrence, hlx, if_false]
          cases fo : firstOccurrence l rest <;> simp [fo]
          omega
    · rw [if_neg hx, ih, lookup_append_single]
      by_cases hlx : l = x
      · subst hlx
        cases h : List.lookup l m with
        | some v => exact absurd (by simp [h]) hx
        | none => simp [h, firstOccurrence]
      · have hxl : ¬ x = l := fun he => hlx he.symm
        cases h : List.lookup l m with
        | some v => simp [h]
        | none =>
          simp only [h, firstOccurrence, hlx, hxl, if_false]
          cases fo : firstOccurrence l rest <;> simp [fo]
          omega

/-- C7: `build_label_to_index` maps every label to the zero-based index of
its first occurrence in the document's label sequence (and absent labels to
nothing), so every lookup — singleton or range endpoint — of a duplicated
label resolves to that first index. -/
theorem label_table_is_first_occurrence (labels : List String) (l : String) :
    List.lookup l (build_label_to_index labels) = firstOccurrence l labels := by
  unfold build_label_to_index
  rw [buildLoop_lookup]
  simp only [List.lookup]
  cases fo : firstOccurrence l labels <;> simp [fo]

/-- C8: in numeric from/to mode, `--from n --to m` selects the inclusive
contiguous run of 0-based indices `n-1, n, ..., m-1` (a list of `m - n + 1`
consecutive values starting at `n-1`), and `--from n` alone selects exactly
`[n-1]`. -/
theorem numeric_from_to_inclusive_run (fs ts : String) (a b : Int)
    (o : Option String) (m : List (String × Nat))
    (hf : pyInt fs = some a) (ht : pyInt ts = some b)
    (hfs : fs ≠ "") (hts : ts ≠ "") :
    selectIndices ⟨some fs, some ts, none, o, false⟩ m =
      .ok ((List.range (b - a + 1).toNat).map (fun i => a - 1 + Int.ofNat i),
        intRepr a ++ ("-") ++ intRepr b ++ (".pdf")) ∧
    selectIndices ⟨some fs, none, none, o, false⟩ m =
      .ok ([a - 1], intRepr a ++ (".pdf")) := by
  constructor
  · simp only [selectIndices, optStr, hf, ht]
    have hrange : pyRange (a - 1) b =
        (List.range (b - a + 1).toNat).map (fun i => a - 1 + Int.ofNat i) := by
      unfold pyRange
      have hn : (b - (a - 1)).toNat = (b - a + 1).toNat := by omega
      rw [hn]
    simp [hfs, hts, hrange]
  · simp only [selectIndices, optStr, hf]
    simp [hfs]

/-- C8 witness: `--from 2 --to 2` selects exactly `[1]`, and `--from 2` alone
selects `[1]`. -/
theorem numeric_from_to_inclusive_run_witness :
    selectIndices ⟨some ("2"), some ("2"), none, none, false⟩ [] =
      .ok ([1], ("2-2.pdf")) ∧
    selectIndices ⟨some ("2"), none, none, none, false⟩ [] =
      .ok ([1], ("2.pdf")) := by
  have h := numeric_from_to_inclusive_run ("2") ("2") 2 2 none []
    (by decide) (by decide) (by decide) (by decide)
  exact ⟨h.1.trans (by decide), h.2.trans (by decide)⟩

/-- C9: when the resolved output path already exists, `main` exits with code
1 before `extract_pages` runs, so nothing is written and the existing file is
untouched (`exited` results carry no write). -/
theorem existing_output_blocks_run (w : World) (args : Args)
    (idxs : List Int) (d : String)
    (hsel : selectIndices args (build_label_to_index w.labels) = .ok (idxs, d))
    (hex : w.fileExists (resolvedOutput args d) = true) :
    runMain w args = .exited 1 ∧
    ∀ p written, runMain w args ≠ .success p written := by
  have hrun : runMain w args = .exited 1 := by
    unfold runMain
    by_cases hin : w.inputExists = false
    · simp [hin]
    · simp [hin, hsel, hex]
  exact ⟨hrun, fun p written hw => MainResult.noConfusion (hw.symm.trans hrun)⟩

/-- C9 witness: a run whose output path `out/1.pdf` already exists exits 1. -/
theorem existing_output_blocks_run_witness :
    runMain ⟨true, 5, [], fun _ => true⟩ ⟨none, none, some ("1"), none, false⟩ =
      .exited 1 :=
  (existing_output_blocks_run ⟨true, 5, [], fun _ => true⟩
    ⟨none, none, some ("1"), none, false⟩ [0] ("1.pdf") (by decide) rfl).1
